import Mathlib

/-!
Verification development for the docker-registry-proxy repository: a shallow
embedding of the read-through cache engine (router, blob pipeline, storage
facade, Docker Hub client, tag revalidation) together with theorems about the
behaviour of those functions.  Strings are modelled as lists of characters,
timestamps and durations as integers (Go time.Time.After is a strict
comparison), byte payloads as lists of naturals, and the SQL/S3 backends as
association lists.  External collaborators (the SHA-256 primitive from
crypto/sha256, the network, json.Unmarshal) enter as explicit parameters of
the functions that consume them, exactly where the Go code calls out to them.
-/

namespace RegistryProxy

/-- Strings are lists of characters; Go indexes bytes, but every string the
    proxy manipulates at the points modelled here is ASCII, where the two views
    agree. -/
abbrev Str := List Char

/-- Byte payloads (blob and manifest bodies). -/
abbrev Bytes := List Nat

/-- Conversion from Lean string literals into the model representation. -/
def str (s : String) : Str := s.toList

/-! ## Go standard-library string primitives (strings package) -/

/-- strings.Split with a one-character separator: n separators yield n+1
    fields, empty fields included (Go returns [""] on the empty string). -/
def goSplit (sep : Char) : Str → List Str
  | [] => [[]]
  | c :: cs =>
    match goSplit sep cs with
    | [] => [[]]
    | p :: ps => if c == sep then [] :: p :: ps else (c :: p) :: ps

/-- strings.HasPrefix. -/
def goHasPre : Str → Str → Bool
  | [], _ => true
  | _ :: _, [] => false
  | p :: ps, c :: cs => p == c && goHasPre ps cs

/-- strings.Contains (substring containment). -/
def goContains (needle : Str) : Str → Bool
  | [] => needle.isEmpty
  | c :: cs => goHasPre needle (c :: cs) || goContains needle cs

/-- strings.TrimPrefix. -/
def goTrimPre (pre s : Str) : Str :=
  if goHasPre pre s then s.drop pre.length else s

/-- strings.Join with a one-character separator. -/
def goJoin (sep : Char) : List Str → Str
  | [] => []
  | [p] => p
  | p :: ps => p ++ sep :: goJoin sep ps

/-- strings.SplitN with n = 2: split at the first separator only. -/
def goSplitN2 (sep : Char) (s : Str) : List Str :=
  match s.findIdx? (fun c => c == sep) with
  | none => [s]
  | some i => [s.take i, s.drop (i + 1)]

/-- strings.Trim with a one-character cutset (both ends). -/
def goTrim (cut : Char) (s : Str) : Str :=
  ((s.dropWhile (fun c => c == cut)).reverse.dropWhile (fun c => c == cut)).reverse

/-- strings.TrimSpace restricted to the blank characters that occur in
    WWW-Authenticate headers. -/
def goTrimSpace (s : Str) : Str :=
  ((s.dropWhile (fun c => c == ' ')).reverse.dropWhile (fun c => c == ' ')).reverse

/-! ## Association lists standing for the Postgres tables and the S3 bucket -/

/-- Row/object lookup by key (SELECT ... WHERE key = ?, first match). -/
def lookupKey {α : Type} (k : Str) : List (Str × α) → Option α
  | [] => none
  | (k', v) :: rest => if k' == k then some v else lookupKey k rest

/-- Replace the value at a key, or append a fresh binding. -/
def setKey {α : Type} (k : Str) (v : α) : List (Str × α) → List (Str × α)
  | [] => [(k, v)]
  | (k', v') :: rest =>
    if k' == k then (k', v) :: rest else (k', v') :: setKey k v rest

/-- Delete every binding at a key (DELETE ... WHERE key = ?; S3 DeleteObject). -/
def removeKey {α : Type} (k : Str) (l : List (Str × α)) : List (Str × α) :=
  l.filter (fun kv => !(kv.1 == k))

/-! ## Character classes of the compiled regular expressions in handlers -/

/-- The class of safeFilenameChars = [^a-zA-Z0-9-_], stated over code points:
    a character survives the replacement exactly when this is true. -/
def safeChar (c : Char) : Bool :=
  (decide (97 ≤ c.toNat) && decide (c.toNat ≤ 122)) ||
  (decide (65 ≤ c.toNat) && decide (c.toNat ≤ 90)) ||
  (decide (48 ≤ c.toNat) && decide (c.toNat ≤ 57)) ||
  c == '-' || c == '_'

/-- The class inside pathValidator = ^[a-zA-Z0-9-_:\\./]+$. -/
def pathChar (c : Char) : Bool :=
  safeChar c || c == ':' || c == '\\' || c == '.' || c == '/'

/-- One lowercase hexadecimal digit, [a-f0-9]. -/
def hexLower (c : Char) : Bool :=
  (decide (48 ≤ c.toNat) && decide (c.toNat ≤ 57)) ||
  (decide (97 ≤ c.toNat) && decide (c.toNat ≤ 102))

/-- pathValidator.MatchString: the anchored pattern matches iff the string is
    non-empty and every character lies in the class. -/
def pathValid (s : Str) : Bool :=
  !s.isEmpty && s.all pathChar

/-- validDigestRegex.MatchString for ^sha256:[a-f0-9]{64}$. -/
def validDigest (s : Str) : Bool :=
  s.length == 71 && goHasPre (str "sha256:") s && (s.drop 7).all hexLower

/-! ## Temp-file name sanitisation (handlers/blobs.go lines 40-48, and the
    equivalent safeFilename helper) -/

/-- safeFilenameChars.ReplaceAllString(digest, "_") followed by the 255-byte
    truncation. -/
def sanitizeDigest (digest : Str) : Str :=
  let safe := digest.map (fun c => if safeChar c then c else '_')
  if safe.length > 255 then safe.take 255 else safe

/-- filepath.Join(tempDir, name) for a clean directory path with no trailing
    separator and a name free of separators and dot segments (the sanitised
    names contain only [A-Za-z0-9_-]); Join of the empty name cleans back to
    the directory itself. -/
def joinTemp (dir name : Str) : Str :=
  if name == [] then dir else dir ++ '/' :: name

/-! ## Data model (internal/models): the cache_entries row and the tag_cache
    row backing the two-tier cache -/

/-- models.CacheEntry as used by the current internal/storage/s3.go: key,
    digest, media type, the three timestamps and the size (in seconds-based
    integer time). -/
structure CacheEntry where
  key : Str
  digest : Str
  mediaType : Str
  storedAt : Int
  expiresAt : Int
  lastAccess : Int
  sizeBytes : Int
deriving DecidableEq, Repr

/-- One S3 object: body bytes, Content-Type and the Docker-Content-Digest user
    metadata attached at upload time. -/
structure S3Object where
  content : Bytes
  contentType : Str
  metaDigest : Str
deriving DecidableEq, Repr

/-- The durable state the storage facade manipulates: the S3 bucket and the
    cache_entries table, both keyed by the cache key. -/
structure StoreState where
  s3 : List (Str × S3Object)
  db : List (Str × CacheEntry)
deriving DecidableEq, Repr

/-- models.TagCache: one row of the tag-list cache (auto-increment id primary
    key, repository merely indexed). -/
structure TagCache where
  id : Nat
  repository : Str
  tags : Str
  etag : Str
  lastModified : Int
  expiresAt : Int
  storedAt : Int
deriving DecidableEq, Repr

/-! ## Storage facade (internal/storage/s3.go, the current version with
    media types and the OnConflict upserts).  The Postgres and S3 row/object
    operations themselves are modelled as succeeding; the explicit Bool and
    attempt-outcome parameters stand for the S3 upload outcomes the Go code
    branches on. -/

/-- Result classification of a storage call, mirroring the error values the
    Go methods return. -/
inductive GetOutcome
  | miss
  | expired
  | s3Error
  | ok (content : Bytes) (digest : Str) (mediaType : Str)
deriving DecidableEq, Repr

/-- S3Storage.Delete: DeleteObject on the bucket, then DELETE of the row. -/
def storageDelete (st : StoreState) (key : Str) : StoreState :=
  { s3 := removeKey key st.s3, db := removeKey key st.db }

/-- The last_access touch performed at the end of a successful Get. -/
def touchLastAccess (now : Int) (key : Str) (db : List (Str × CacheEntry)) :
    List (Str × CacheEntry) :=
  match lookupKey key db with
  | none => db
  | some e => setKey key { e with lastAccess := now } db

/-- S3Storage.Get: row lookup, lazy expiry (time.Now().After(ExpiresAt), a
    strict comparison) with best-effort Delete, S3 object fetch, digest
    preference for the object user metadata, and the last_access touch. -/
def storageGet (now : Int) (st : StoreState) (key : Str) :
    GetOutcome × StoreState :=
  match lookupKey key st.db with
  | none => (.miss, st)
  | some entry =>
    if now > entry.expiresAt then
      (.expired, storageDelete st key)
    else
      match lookupKey key st.s3 with
      | none => (.s3Error, st)
      | some obj =>
        let digest := if obj.metaDigest == [] then entry.digest else obj.metaDigest
        (.ok obj.content digest obj.contentType,
          { st with db := touchLastAccess now key st.db })

/-- Result of a Put/PutStream call. -/
inductive PutResult
  | ok
  | uploadFailed
deriving DecidableEq, Repr

/-- The OnConflict upsert used by Put: on a fresh key the whole entry is
    inserted; on conflict the update-set is digest, media_type, expires_at,
    last_access and size_bytes (stored_at keeps its old value). -/
def upsertPut (entry : CacheEntry) (db : List (Str × CacheEntry)) :
    List (Str × CacheEntry) :=
  match lookupKey entry.key db with
  | none => db ++ [(entry.key, entry)]
  | some old =>
    setKey entry.key
      { old with digest := entry.digest, mediaType := entry.mediaType,
                 expiresAt := entry.expiresAt, lastAccess := entry.lastAccess,
                 sizeBytes := entry.sizeBytes } db

/-- The OnConflict upsert used by PutStream: same as upsertPut except that the
    update-set omits size_bytes (and stored_at). -/
def upsertStream (entry : CacheEntry) (db : List (Str × CacheEntry)) :
    List (Str × CacheEntry) :=
  match lookupKey entry.key db with
  | none => db ++ [(entry.key, entry)]
  | some old =>
    setKey entry.key
      { old with digest := entry.digest, mediaType := entry.mediaType,
                 expiresAt := entry.expiresAt, lastAccess := entry.lastAccess } db

/-- S3Storage.Put: upload the bytes (outcome given by uploadOk); on failure
    return the error with the state untouched, otherwise store the object and
    upsert the row with size_bytes = len(content). -/
def storagePut (uploadOk : Bool) (now ttl : Int) (key : Str) (content : Bytes)
    (digest mediaType : Str) (st : StoreState) : PutResult × StoreState :=
  if !uploadOk then (.uploadFailed, st)
  else
    let obj : S3Object :=
      { content := content, contentType := mediaType, metaDigest := digest }
    let st1 : StoreState := { st with s3 := setKey key obj st.s3 }
    let entry : CacheEntry :=
      { key := key, digest := digest, mediaType := mediaType, storedAt := now,
        expiresAt := now + ttl, lastAccess := now, sizeBytes := (content.length : Int) }
    (.ok, { st1 with db := upsertPut entry st1.db })

/-- Classification of one UploadWithContext outcome inside the PutStream retry
    loop, matching the branches the Go code distinguishes. -/
inductive UploadAttempt
  | ok
  | canceled
  | tooLarge
  | retryable
  | permanent
deriving DecidableEq, Repr

/-- The state change of a successful streamed upload: object stored, row
    upserted with size_bytes = -1 on insert (the conflict update-set omits
    size_bytes). -/
def streamSuccess (now ttl : Int) (key : Str) (content : Bytes)
    (digest mediaType : Str) (st : StoreState) : StoreState :=
  let obj : S3Object :=
    { content := content, contentType := mediaType, metaDigest := digest }
  let st1 : StoreState := { st with s3 := setKey key obj st.s3 }
  let entry : CacheEntry :=
    { key := key, digest := digest, mediaType := mediaType, storedAt := now,
      expiresAt := now + ttl, lastAccess := now, sizeBytes := -1 }
  { st1 with db := upsertStream entry st1.db }

/-- The attempt loop of S3Storage.PutStream: up to maxRetries = 5 attempts;
    ok stores and returns, RequestCanceled and retryable errors sleep and
    continue, a 413 returns at once, a non-retryable error breaks; falling out
    of the loop is a failure. -/
def putStreamLoop (attempts : Nat → UploadAttempt) (now ttl : Int) (key : Str)
    (content : Bytes) (digest mediaType : Str) (st : StoreState) :
    Nat → Nat → PutResult × StoreState
  | _, 0 => (.uploadFailed, st)
  | attempt, fuel + 1 =>
    match attempts attempt with
    | .ok => (.ok, streamSuccess now ttl key content digest mediaType st)
    | .canceled =>
      putStreamLoop attempts now ttl key content digest mediaType st (attempt + 1) fuel
    | .tooLarge => (.uploadFailed, st)
    | .retryable =>
      putStreamLoop attempts now ttl key content digest mediaType st (attempt + 1) fuel
    | .permanent => (.uploadFailed, st)

/-- S3Storage.PutStream with its maxRetries = 5 attempt budget. -/
def storagePutStream (attempts : Nat → UploadAttempt) (now ttl : Int) (key : Str)
    (content : Bytes) (digest mediaType : Str) (st : StoreState) :
    PutResult × StoreState :=
  putStreamLoop attempts now ttl key content digest mediaType st 1 5

/-! ## Router (ProxyHandler.ServeHTTP of the current handler file): path
    validation and dispatch on the last two segments -/

/-- Where ServeHTTP sends a request; the three invalid* constructors are the
    400 responses issued directly by the router. -/
inductive Route
  | invalidPath
  | invalidRequest
  | invalidComponent
  | tagsList (image : Str)
  | catalog
  | manifest (image reference : Str)
  | blob (image digest : Str)
  | notFound (resourceType : Str)
deriving DecidableEq, Repr

/-- parts[len(parts)-1] once len(parts) >= 2 is known. -/
def lastPart (parts : List Str) : Str := parts.getLastD []

/-- parts[len(parts)-2] once len(parts) >= 2 is known. -/
def penultPart (parts : List Str) : Str := parts.dropLast.getLastD []

/-- strings.Join(parts[:len(parts)-2], "/"), the image name. -/
def imageOf (parts : List Str) : Str :=
  goJoin '/' (parts.take (parts.length - 2))

/-- ServeHTTP: trim the /v2/ mount point, run pathValidator, split on "/",
    dispatch tags/list before any ".."/"//" segment inspection, then the
    catalog literal, then the ".."/"//" loop, then the manifests/blobs switch.
    The second len(parts) < 2 test of the source is subsumed by the first and
    not repeated here. -/
def serveHTTP (urlPath : Str) : Route :=
  let path := goTrimPre (str "/v2/") urlPath
  if !(pathValid path) then .invalidPath
  else
    let parts := goSplit '/' path
    if parts.length < 2 then .invalidRequest
    else if decide (3 ≤ parts.length) && penultPart parts == str "tags" &&
        lastPart parts == str "list" then
      .tagsList (imageOf parts)
    else if path == str "_catalog" then .catalog
    else if parts.any (fun part =>
        goContains (str "..") part || goContains (str "//") part) then
      .invalidComponent
    else if penultPart parts == str "manifests" then
      .manifest (imageOf parts) (lastPart parts)
    else if penultPart parts == str "blobs" then
      .blob (imageOf parts) (lastPart parts)
    else .notFound (penultPart parts)

/-- Whether the dispatched handler reaches the metadata database or the cache
    before producing a response: handleTagsList opens with a tag_cache query,
    handleManifest opens with storage.Get, and handleBlob performs storage.Get
    as soon as the digest matches validDigestRegex. -/
def routeQueriesBackend : Route → Bool
  | .tagsList _ => true
  | .manifest _ _ => true
  | .blob _ digest => validDigest digest
  | _ => false

/-! ## Blob leader download (handlers/blobs.go lines 65-124): digest
    verification over the multi-writer and the deferred cache fill.  The model
    starts after GetBlob returned and covers the leader that won the exclusive
    temp-file create; crypto/sha256 enters as the sha256hex parameter and the
    storage interface value as putStreamFn. -/

structure BlobDownloadResult where
  status : Nat
  tempFileRemains : Bool
  store : StoreState
  cacheFillRan : Bool
deriving DecidableEq, Repr

/-- The retry loop of the deferred cache-fill goroutine: up to 5 PutStream
    calls, stopping at the first success; the temp file is removed afterwards
    regardless of the outcome. -/
def cacheFillLoop (putStreamFn : StoreState → PutResult × StoreState) :
    Nat → StoreState → StoreState × Bool
  | 0, st => (st, false)
  | fuel + 1, st =>
    match putStreamFn st with
    | (.ok, st') => (st', true)
    | (.uploadFailed, st') => cacheFillLoop putStreamFn fuel st'

/-- The leader path of handleBlob after GetBlob: forward non-200 responses,
    stream through the multi-writer (copyOk tells whether io.Copy succeeded),
    compare "sha256:" + hex(hash) with the requested digest, and either remove
    the temp file with a 502 or answer 200 and spawn the cache fill. -/
def leaderDownload (sha256hex : Bytes → Str)
    (putStreamFn : StoreState → PutResult × StoreState)
    (digest : Str) (upstreamStatus : Nat) (body : Bytes)
    (copyOk : Bool) (st : StoreState) : BlobDownloadResult :=
  if !(upstreamStatus == 200) then
    { status := upstreamStatus, tempFileRemains := false, store := st,
      cacheFillRan := false }
  else if !copyOk then
    { status := 500, tempFileRemains := false, store := st, cacheFillRan := false }
  else
    let calculatedDigest := str "sha256:" ++ sha256hex body
    if calculatedDigest == digest then
      let (st', _) := cacheFillLoop putStreamFn 5 st
      { status := 200, tempFileRemains := false, store := st', cacheFillRan := true }
    else
      { status := 502, tempFileRemains := false, store := st, cacheFillRan := false }

/-! ## Manifest miss path (the current handleManifest): digest derivation from
    the upstream Docker-Content-Digest header, cache fill via Put, response
    headers -/

structure ManifestResult where
  status : Nat
  headerDigest : Str
  headerContentType : Str
  body : Bytes
  store : StoreState
deriving DecidableEq, Repr

/-- handleManifest after storage.Get missed: forward non-200 upstream answers
    verbatim; otherwise derive the digest (upstream header, or sha256 of the
    body when the header is empty), Put the manifest (failure logged, not
    fatal), and respond with the derived digest. -/
def manifestMissFetch (sha256hex : Bytes → Str) (uploadOk : Bool) (now ttl : Int)
    (image reference : Str) (upStatus : Nat) (upDigest upContentType : Str)
    (body : Bytes) (st : StoreState) : ManifestResult :=
  if !(upStatus == 200) then
    { status := upStatus, headerDigest := upDigest,
      headerContentType := upContentType, body := body, store := st }
  else
    let digest := if upDigest == [] then str "sha256:" ++ sha256hex body else upDigest
    let key := str "manifests/" ++ image ++ '/' :: reference
    let (_, st') := storagePut uploadOk now ttl key body digest upContentType st
    { status := 200, headerDigest := digest, headerContentType := upContentType,
      body := body, store := st' }

/-! ## Tag-list flow (the current handleTagsList, serveCachedTags,
    validateTagsWithUpstream and cacheTags).  The conditional revalidation and
    the plain fetch are oracles standing for DoRequestWithAuth and GetTags;
    json.Unmarshal shape validation is the jsonValid parameter. -/

/-- Outcome of the conditional GET issued by validateTagsWithUpstream. -/
inductive CondResult
  | fetchErr
  | status (code : Nat)
deriving DecidableEq, Repr

/-- Outcome of the unconditional GetTags fetch. -/
inductive TagsFetch
  | fetchErr
  | resp (status : Nat) (body : Str) (etag : Str) (lastModified : Int)
deriving DecidableEq, Repr

/-- The response written for a tags request (status, ETag header, body). -/
structure TagsResponse where
  status : Nat
  etag : Str
  body : Str
deriving DecidableEq, Repr

/-- The row query opening handleTagsList:
    Where("repository = ? AND expires_at > ?", image, time.Now()).First. -/
def findTagRow (now : Int) (image : Str) (db : List TagCache) : Option TagCache :=
  db.find? (fun r => r.repository == image && decide (now < r.expiresAt))

/-- The refresh update of a validated row: db.Model(cachedTag).Updates with
    exactly expires_at and stored_at in the update map, addressed by the
    primary key. -/
def refreshTagRow (now ttl : Int) (id : Nat) (db : List TagCache) : List TagCache :=
  db.map (fun r =>
    if r.id == id then { r with expiresAt := now + ttl, storedAt := now } else r)

/-- validateTagsWithUpstream: request errors and non-304 statuses fail the
    validation and leave the table untouched; a 304 refreshes the row. -/
def validateTagsWithUpstream (now ttl : Int) (cond : CondResult)
    (db : List TagCache) (ct : TagCache) : Bool × List TagCache :=
  match cond with
  | .fetchErr => (false, db)
  | .status code =>
    if code == 304 then (true, refreshTagRow now ttl ct.id db)
    else (false, db)

/-- serveCachedTags: 200, the stored ETag and the stored body. -/
def serveCachedTags (ct : TagCache) : TagsResponse :=
  { status := 200, etag := ct.etag, body := ct.tags }

/-- cacheTags: OnConflict(repository) upsert with update-set tags, etag,
    last_modified, expires_at, stored_at; a fresh row receives the next
    auto-increment id. -/
def cacheTagsUpsert (now ttl : Int) (image body etag : Str) (lastModified : Int)
    (db : List TagCache) : List TagCache :=
  if db.any (fun r => r.repository == image) then
    db.map (fun r =>
      if r.repository == image then
        { r with tags := body, etag := etag, lastModified := lastModified,
                 expiresAt := now + ttl, storedAt := now }
      else r)
  else
    db ++ [{ id := db.foldl (fun m r => max m r.id) 0 + 1, repository := image,
             tags := body, etag := etag, lastModified := lastModified,
             expiresAt := now + ttl, storedAt := now }]

/-- The fetch-and-cache tail of handleTagsList (lines 61-106): 502 on fetch
    error, transparent forward of non-200, 502 on malformed JSON, else upsert
    and serve the new body with its ETag. -/
def tagsFetchPath (jsonValid : Str → Bool) (now ttl : Int) (fetch : TagsFetch)
    (db : List TagCache) (image : Str) : TagsResponse × List TagCache :=
  match fetch with
  | .fetchErr => ({ status := 502, etag := [], body := str "Failed to fetch tags" }, db)
  | .resp code body etag lm =>
    if !(code == 200) then ({ status := code, etag := etag, body := body }, db)
    else if !(jsonValid body) then
      ({ status := 502, etag := [], body := str "Invalid tags response" }, db)
    else ({ status := 200, etag := etag, body := body },
          cacheTagsUpsert now ttl image body etag lm db)

/-- handleTagsList: fresh rows (age < TTL/2) are served at once; stale-but-
    valid rows are revalidated and served on success; everything else falls
    through to the fetch path. -/
def handleTagsList (jsonValid : Str → Bool) (now ttl : Int) (cond : CondResult)
    (fetch : TagsFetch) (db : List TagCache) (image : Str) :
    TagsResponse × List TagCache :=
  match findTagRow now image db with
  | some ct =>
    if now - ct.storedAt < ttl / 2 then (serveCachedTags ct, db)
    else
      match validateTagsWithUpstream now ttl cond db ct with
      | (true, db1) => (serveCachedTags ct, db1)
      | (false, db1) => tagsFetchPath jsonValid now ttl fetch db1 image
  | none => tagsFetchPath jsonValid now ttl fetch db image

/-! ## Docker Hub client (internal/dockerhub/client.go, the current version
    with the cached token and expiry): the auth round of doRequestWithAuth.
    Time is in seconds, so the one-minute guard is the literal 60. -/

/-- The process-wide client state: cached Bearer token and its expiry. -/
structure ClientState where
  token : Str
  tokenExp : Int
deriving DecidableEq, Repr

/-- The slice of an upstream HTTP response the auth round inspects. -/
structure HttpResp where
  status : Nat
  wwwAuth : Str
deriving DecidableEq, Repr

/-- parseAuthParams: strip a leading "Bearer ", split on commas, take the
    key=value pairs (first "=" only), unquote the values, store them in a map
    with later keys overwriting earlier ones. -/
def parseAuthParams (header : Str) : List (Str × Str) :=
  let h := goTrimPre (str "Bearer ") header
  (goSplit ',' h).foldl
    (fun params part =>
      match goSplitN2 '=' (goTrimSpace part) with
      | [k, v] => setKey k (goTrim '"' v) params
      | _ => params)
    []

/-- Go map read with the zero value for missing keys. -/
def lookupParam (k : Str) (params : List (Str × Str)) : Str :=
  (lookupKey k params).getD []

/-- What doRequestWithAuth hands back to its caller. -/
inductive DoResult
  | failed
  | resp (r : HttpResp)
deriving DecidableEq, Repr

/-- Observable trace of one doRequestWithAuth call: the value returned, how
    many token-endpoint requests were made, the (realm, service, scope) of a
    token request if one happened, whether the first issue carried an
    Authorization header, and the client state afterwards. -/
structure DoOutcome where
  result : DoResult
  tokenFetches : Nat
  tokenRequest : Option (Str × Str × Str)
  sentAuth : Bool
  state : ClientState
deriving DecidableEq, Repr

/-- The environment of one call: the wall clock, the first Do outcome (none is
    a transport error), the token endpoint outcome (none folds together
    transport errors, non-200 statuses and decode failures; some carries the
    token and expires_in), and the second Do outcome. -/
structure AuthCall where
  now : Int
  resp1 : Option HttpResp
  tokenRes : Option (Str × Int)
  resp2 : Option HttpResp
deriving DecidableEq, Repr

/-- doRequestWithAuth: discard the token when now + 1min is strictly after its
    expiry, attach it when non-empty, and on a 401 with a non-empty
    WWW-Authenticate header fetch a token with the parsed parameters and
    reissue the cloned request exactly once, returning whatever comes back. -/
def doRequestWithAuth (call : AuthCall) (c : ClientState) : DoOutcome :=
  let c1 := if call.now + 60 > c.tokenExp then { c with token := [] } else c
  let sent := !(c1.token == [])
  match call.resp1 with
  | none =>
    { result := .failed, tokenFetches := 0, tokenRequest := none,
      sentAuth := sent, state := c1 }
  | some r1 =>
    if r1.status == 401 then
      if r1.wwwAuth == [] then
        { result := .resp r1, tokenFetches := 0, tokenRequest := none,
          sentAuth := sent, state := c1 }
      else
        let params := parseAuthParams r1.wwwAuth
        let req := (lookupParam (str "realm") params,
                    lookupParam (str "service") params,
                    lookupParam (str "scope") params)
        match call.tokenRes with
        | none =>
          { result := .failed, tokenFetches := 1, tokenRequest := some req,
            sentAuth := sent, state := c1 }
        | some (tok, expiresIn) =>
          let c2 : ClientState := { token := tok, tokenExp := call.now + expiresIn }
          match call.resp2 with
          | none =>
            { result := .failed, tokenFetches := 1, tokenRequest := some req,
              sentAuth := sent, state := c2 }
          | some r2 =>
            { result := .resp r2, tokenFetches := 1, tokenRequest := some req,
              sentAuth := sent, state := c2 }
    else
      { result := .resp r1, tokenFetches := 0, tokenRequest := none,
        sentAuth := sent, state := c1 }

/-- A sequence of authenticated calls threaded through the client state,
    totalling the token-endpoint requests. -/
def runAuthCalls (calls : List AuthCall) (c : ClientState) : Nat × ClientState :=
  match calls with
  | [] => (0, c)
  | call :: rest =>
    let o := doRequestWithAuth call c
    let (n, c') := runAuthCalls rest o.state
    (o.tokenFetches + n, c')

/-! ## Single-flight burst (handlers/blobs.go lines 44-65): the interleaving
    of concurrent handleBlob calls for one digest on the shared downloadMap,
    wait channel and temp file.  Each constructor of BlobPc is one atomic
    action of the Go code; storage.Get has already missed for every request
    (cold cache) when the burst starts. -/

/-- Program counter of one request inside handleBlob: about to probe the temp
    file (line 49), about to Load the map entry (line 52), blocked on the wait
    channel (line 53; the channel is never closed by the code, so no step
    leaves this state), about to Store its own channel (line 58), about to
    call GetBlob (line 65), finished serving from temp, or downloading as a
    leader. -/
inductive BlobPc
  | tryTemp
  | loadMap
  | waitChan
  | storeMap
  | fetchBlob
  | servedTemp
  | downloading
deriving DecidableEq, Repr

/-- Shared state of a burst for one digest: whether downloadMap holds an entry
    for the digest, whether the temp file exists, how many GET /blobs requests
    upstream has received, and each request's program counter. -/
structure BurstState where
  mapHasHandle : Bool
  tempFileExists : Bool
  upstreamGets : Nat
  pcs : List BlobPc
deriving DecidableEq, Repr

/-- Replace request i's program counter. -/
def setPc (s : BurstState) (i : Nat) (pc : BlobPc) : BurstState :=
  { s with pcs := s.pcs.set i pc }

/-- One atomic step of request i, following the statement order of
    handleBlob. -/
def stepRequest (s : BurstState) (i : Nat) : BurstState :=
  match s.pcs[i]? with
  | none => s
  | some pc =>
    match pc with
    | .tryTemp =>
      if s.tempFileExists then setPc s i .servedTemp else setPc s i .loadMap
    | .loadMap =>
      if s.mapHasHandle then setPc s i .waitChan else setPc s i .storeMap
    | .waitChan => s
    | .storeMap => { setPc s i .fetchBlob with mapHasHandle := true }
    | .fetchBlob => { setPc s i .downloading with upstreamGets := s.upstreamGets + 1 }
    | .servedTemp => s
    | .downloading => s

/-- Run a schedule: at each tick the scheduled request performs its next
    atomic step. -/
def runSchedule (sched : List Nat) (s : BurstState) : BurstState :=
  sched.foldl stepRequest s

/-- A cold burst of n concurrent requests for one digest: empty map, no temp
    file, upstream untouched. -/
def coldBurst (n : Nat) : BurstState :=
  { mapHasHandle := false, tempFileExists := false, upstreamGets := 0,
    pcs := List.replicate n .tryTemp }


/-! ## Concrete rows, objects and states used by the closed example
    theorems -/

/-- A cache row over the fixed key "k". -/
def exEntry (exp size : Int) : CacheEntry :=
  { key := str "k", digest := str "d", mediaType := str "m",
    storedAt := 0, expiresAt := exp, lastAccess := 0, sizeBytes := size }

/-- The matching stored object. -/
def exObj : S3Object :=
  { content := [7], contentType := str "m", metaDigest := str "d" }

/-- A store holding exactly the row and object for "k". -/
def exState (exp size : Int) : StoreState :=
  { s3 := [(str "k", exObj)], db := [(str "k", exEntry exp size)] }

/-- A stored tag row for repository "r" with ETag "v1". -/
def exTagRow : TagCache :=
  { id := 1, repository := str "r", tags := str "tagsbody", etag := str "v1",
    lastModified := 0, expiresAt := 60, storedAt := 0 }

/-! ## Auxiliary lemmas about the model primitives -/

theorem lookupKey_setKey_self {α : Type} (k : Str) (v : α) (l : List (Str × α)) :
    lookupKey k (setKey k v l) = some v := by
  induction l with
  | nil => simp [setKey, lookupKey]
  | cons kv rest ih =>
    obtain ⟨k', v'⟩ := kv
    cases h : k' == k with
    | true => simp [setKey, lookupKey, h]
    | false => simp [setKey, lookupKey, h, ih]

theorem lookupKey_removeKey_self {α : Type} (k : Str) (l : List (Str × α)) :
    lookupKey k (removeKey k l) = none := by
  induction l with
  | nil => rfl
  | cons kv rest ih =>
    obtain ⟨k', v'⟩ := kv
    cases h : k' == k with
    | true => simpa [removeKey, List.filter_cons, h] using ih
    | false => simpa [removeKey, List.filter_cons, h, lookupKey] using ih

theorem lookupKey_append_self {α : Type} (k : Str) (v : α) (l : List (Str × α))
    (h : lookupKey k l = none) : lookupKey k (l ++ [(k, v)]) = some v := by
  induction l with
  | nil => simp [lookupKey]
  | cons kv rest ih =>
    obtain ⟨k', v'⟩ := kv
    cases hk : k' == k with
    | true => simp [lookupKey, hk] at h
    | false =>
      simp only [lookupKey, hk, Bool.false_eq_true, if_false] at h
      simp [lookupKey, hk, ih h]

theorem goHasPre_append (l m : Str) : goHasPre l (l ++ m) = true := by
  induction l with
  | nil => rfl
  | cons c cs ih => simp [goHasPre, ih]

theorem goHasPre_eq_append (p s : Str) (h : goHasPre p s = true) :
    s = p ++ s.drop p.length := by
  induction p generalizing s with
  | nil => simp
  | cons c cs ih =>
    cases s with
    | nil => simp [goHasPre] at h
    | cons a as =>
      simp only [goHasPre, Bool.and_eq_true, beq_iff_eq] at h
      obtain ⟨hc, h2⟩ := h
      subst hc
      simp only [List.length_cons, List.drop_succ_cons, List.cons_append,
        List.cons.injEq, true_and]
      exact ih as h2

theorem hexLower_safeChar (c : Char) (h : hexLower c = true) : safeChar c = true := by
  simp only [hexLower, safeChar, Bool.or_eq_true, Bool.and_eq_true,
    decide_eq_true_eq] at h ⊢
  rcases h with h | h
  · exact Or.inl (Or.inl (Or.inr ⟨h.1, h.2⟩))
  · exact Or.inl (Or.inl (Or.inl (Or.inl ⟨h.1, by omega⟩)))

theorem sanitizeChar_safe (c : Char) :
    safeChar (if safeChar c then c else '_') = true := by
  cases h : safeChar c with
  | true => simp [h]
  | false =>
    simp only [h, Bool.false_eq_true, if_false]
    decide

theorem all_map_sanitize (s : Str) :
    (s.map (fun c => if safeChar c then c else '_')).all safeChar = true := by
  induction s with
  | nil => rfl
  | cons c cs ih => simp [List.map_cons, List.all_cons, sanitizeChar_safe, ih]

theorem all_take (p : Char → Bool) (n : Nat) (s : Str) (h : s.all p = true) :
    (s.take n).all p = true := by
  rw [List.all_eq_true] at h ⊢
  exact fun x hx => h x (List.take_subset n s hx)

theorem map_hex_fixed (t : Str) (h : t.all hexLower = true) :
    t.map (fun c => if safeChar c then c else '_') = t := by
  induction t with
  | nil => rfl
  | cons c cs ih =>
    simp only [List.all_cons, Bool.and_eq_true] at h
    simp [hexLower_safeChar c h.1, ih h.2]

theorem putStreamLoop_cases (attempts : Nat → UploadAttempt) (now ttl : Int)
    (key : Str) (content : Bytes) (digest mediaType : Str) (st : StoreState) :
    ∀ (fuel attempt : Nat),
      putStreamLoop attempts now ttl key content digest mediaType st attempt fuel =
        (.ok, streamSuccess now ttl key content digest mediaType st) ∨
      putStreamLoop attempts now ttl key content digest mediaType st attempt fuel =
        (.uploadFailed, st) := by
  intro fuel
  induction fuel with
  | zero => exact fun _ => Or.inr rfl
  | succ n ih =>
    intro attempt
    cases h : attempts attempt with
    | ok => exact Or.inl (by simp [putStreamLoop, h])
    | canceled => simpa [putStreamLoop, h] using ih (attempt + 1)
    | tooLarge => exact Or.inr (by simp [putStreamLoop, h])
    | retryable => simpa [putStreamLoop, h] using ih (attempt + 1)
    | permanent => exact Or.inr (by simp [putStreamLoop, h])

theorem putStreamLoop_all_fail (attempts : Nat → UploadAttempt) (now ttl : Int)
    (key : Str) (content : Bytes) (digest mediaType : Str) (st : StoreState)
    (hfail : ∀ n, ¬ attempts n = .ok) :
    ∀ (fuel attempt : Nat),
      putStreamLoop attempts now ttl key content digest mediaType st attempt fuel =
        (.uploadFailed, st) := by
  intro fuel
  induction fuel with
  | zero => exact fun _ => rfl
  | succ n ih =>
    intro attempt
    cases h : attempts attempt with
    | ok => exact absurd h (hfail attempt)
    | canceled => simpa [putStreamLoop, h] using ih (attempt + 1)
    | tooLarge => simp [putStreamLoop, h]
    | retryable => simpa [putStreamLoop, h] using ih (attempt + 1)
    | permanent => simp [putStreamLoop, h]

theorem lookupKey_upsertPut (k : Str) (entry : CacheEntry)
    (db : List (Str × CacheEntry)) (hk : entry.key = k) :
    (lookupKey k (upsertPut entry db)).map (fun e => e.digest) =
      some entry.digest := by
  subst hk
  cases h : lookupKey entry.key db with
  | none => simp [upsertPut, h, lookupKey_append_self entry.key entry db h]
  | some old => simp [upsertPut, h, lookupKey_setKey_self]

theorem lookupKey_upsertStream_fresh (k : Str) (entry : CacheEntry)
    (db : List (Str × CacheEntry)) (hk : entry.key = k)
    (h : lookupKey k db = none) :
    lookupKey k (upsertStream entry db) = some entry := by
  subst hk
  simp [upsertStream, h, lookupKey_append_self entry.key entry db h]

theorem lookupKey_upsertStream_conflict (k : Str) (entry old : CacheEntry)
    (db : List (Str × CacheEntry)) (hk : entry.key = k)
    (h : lookupKey k db = some old) :
    lookupKey k (upsertStream entry db) =
      some { old with digest := entry.digest, mediaType := entry.mediaType,
                      expiresAt := entry.expiresAt, lastAccess := entry.lastAccess } := by
  subst hk
  simp [upsertStream, h, lookupKey_setKey_self]



theorem doRequestWithAuth_quiet (call : AuthCall) (c : ClientState)
    (hv : call.now + 60 ≤ c.tokenExp)
    (hn : ∀ r, call.resp1 = some r → ¬ r.status = 401) :
    (doRequestWithAuth call c).tokenFetches = 0 ∧
    (doRequestWithAuth call c).state = c := by
  have hc1 : ¬ call.now + 60 > c.tokenExp := by omega
  cases hr : call.resp1 with
  | none => simp [doRequestWithAuth, hr, hc1]
  | some r1 => simp [doRequestWithAuth, hr, hc1, hn r1 hr]

theorem doRequestWithAuth_sentAuth (call : AuthCall) (c : ClientState) :
    (doRequestWithAuth call c).sentAuth =
      !((if call.now + 60 > c.tokenExp then ([] : Str) else c.token) == []) := by
  cases hr : call.resp1 with
  | none =>
    by_cases hexp : call.now + 60 > c.tokenExp <;>
      simp [doRequestWithAuth, hr, hexp]
  | some r1 =>
    by_cases hexp : call.now + 60 > c.tokenExp <;>
      by_cases h4 : r1.status = 401 <;>
        by_cases hw : r1.wwwAuth = [] <;>
          cases htr : call.tokenRes <;>
            cases hr2 : call.resp2 <;>
              simp [doRequestWithAuth, hr, hexp, h4, hw, htr, hr2]



/-! ## Claim theorems -/

/-- C1: the claim demands at most one downloading leader per digest and at
    most one upstream GET /blobs/D during a burst.  The code refutes this:
    downloadMap.Load (line 52) and downloadMap.Store (line 58) are separate
    atomic operations with no combined LoadOrStore, so the interleaving in
    which both cold requests run their temp probe and their Load before
    either Store lets both install a handle and both call GetBlob.  After the
    schedule below, both requests are downloading leaders and upstream has
    received two GETs for the one digest. -/
theorem c1_single_flight_two_leaders :
    (runSchedule [0, 1, 0, 1, 0, 1, 0, 1] (coldBurst 2)).upstreamGets = 2 ∧
    (runSchedule [0, 1, 0, 1, 0, 1, 0, 1] (coldBurst 2)).pcs =
      [BlobPc.downloading, BlobPc.downloading] := by decide

/-- C2: in the blob download path, when "sha256:" + hex of the received bytes
    differs from the requested digest, the handler responds 502, the temp
    file is removed, the store is untouched (no CacheEntry row, no object)
    and the cache-fill goroutine is not started. -/
theorem c2_digest_mismatch_rejected (sha256hex : Bytes → Str)
    (putStreamFn : StoreState → PutResult × StoreState) (digest : Str)
    (body : Bytes) (st : StoreState)
    (hmis : ¬ str "sha256:" ++ sha256hex body = digest) :
    leaderDownload sha256hex putStreamFn digest 200 body true st =
      { status := 502, tempFileRemains := false, store := st,
        cacheFillRan := false } := by
  simp [leaderDownload, hmis]

/-- Witness for c2_digest_mismatch_rejected at a concrete hash function,
    digest, body and store. -/
theorem c2_digest_mismatch_rejected_witness :
    leaderDownload (fun _ => str "00") (fun st => (.uploadFailed, st))
        (str "sha256:11") 200 [] true { s3 := [], db := [] } =
      { status := 502, tempFileRemains := false,
        store := { s3 := [], db := [] }, cacheFillRan := false } :=
  c2_digest_mismatch_rejected (fun _ => str "00") (fun st => (.uploadFailed, st))
    (str "sha256:11") [] { s3 := [], db := [] } (by decide)

/-- C3: the claim wants every /v2/ path containing ".." or "//" answered 400
    with no cache, database or upstream contact, for every resource type
    including tags/list.  The router dispatches tags/list before its
    ".."/"//" segment loop, and splitting on "/" means no segment can ever
    contain "//" at all: /v2/a/../tags/list reaches handleTagsList, whose
    first action queries the tag_cache table, and /v2/a//blobs/sha256:aa...a
    reaches handleBlob with a digest that passes validation, so storage.Get
    runs.  Neither path yields a router 400. -/
theorem c3_path_safety_bypassed :
    goContains (str "..") (str "a/../tags/list") = true ∧
    serveHTTP (str "/v2/a/../tags/list") = .tagsList (str "a/..") ∧
    routeQueriesBackend (serveHTTP (str "/v2/a/../tags/list")) = true ∧
    goContains (str "//")
      (str "a//blobs/sha256:aaaaaaaaaaaaaaaaaaaaaaaaaaaaaaaaaaaaaaaaaaaaaaaaaaaaaaaaaaaaaaaa") = true ∧
    serveHTTP
      (str "/v2/a//blobs/sha256:aaaaaaaaaaaaaaaaaaaaaaaaaaaaaaaaaaaaaaaaaaaaaaaaaaaaaaaaaaaaaaaa") =
      .blob (str "a/")
        (str "sha256:aaaaaaaaaaaaaaaaaaaaaaaaaaaaaaaaaaaaaaaaaaaaaaaaaaaaaaaaaaaaaaaa") ∧
    routeQueriesBackend
      (serveHTTP
        (str "/v2/a//blobs/sha256:aaaaaaaaaaaaaaaaaaaaaaaaaaaaaaaaaaaaaaaaaaaaaaaaaaaaaaaaaaaaaaaa")) =
      true := by decide



/-- C4 (amended): storage Get on a row whose expiry lies strictly in the past
    (now > expires_at, matching the strict time.Now().After comparison)
    returns the expired error and deletes both the S3 object and the metadata
    row, leaving neither in place.  At the boundary instant now = expires_at
    the entry is still served (see the counterexample). -/
theorem c4_expired_get_deletes (now : Int) (st : StoreState) (k : Str)
    (e : CacheEntry) (hrow : lookupKey k st.db = some e)
    (hexp : e.expiresAt < now) :
    (storageGet now st k).1 = .expired ∧
    lookupKey k (storageGet now st k).2.db = none ∧
    lookupKey k (storageGet now st k).2.s3 = none := by
  have h1 : storageGet now st k = (.expired, storageDelete st k) := by
    simp only [storageGet, hrow, gt_iff_lt, hexp, if_true]
  rw [h1]
  exact ⟨rfl, lookupKey_removeKey_self k st.db, lookupKey_removeKey_self k st.s3⟩

/-- Witness for c4_expired_get_deletes: one second past expiry the row and
    the object are both gone and the call reports expiry. -/
theorem c4_expired_get_deletes_witness :
    (storageGet 51 (exState 50 1) (str "k")).1 = .expired ∧
    lookupKey (str "k") (storageGet 51 (exState 50 1) (str "k")).2.db = none ∧
    lookupKey (str "k") (storageGet 51 (exState 50 1) (str "k")).2.s3 = none :=
  c4_expired_get_deletes 51 (exState 50 1) (str "k") (exEntry 50 1)
    (by decide) (by decide)

/-- C4 counterexample: at the boundary now = expires_at the claim demands the
    expired error and a double delete, but time.Now().After is strict, so the
    code still serves the cached bytes and the row survives (with last_access
    touched to now). -/
theorem c4_boundary_counterexample :
    (storageGet 50 (exState 50 1) (str "k")).1 = .ok [7] (str "d") (str "m") ∧
    ¬ (storageGet 50 (exState 50 1) (str "k")).1 = .expired ∧
    lookupKey (str "k") (storageGet 50 (exState 50 1) (str "k")).2.db =
      some { exEntry 50 1 with lastAccess := 50 } ∧
    lookupKey (str "k") (storageGet 50 (exState 50 1) (str "k")).2.s3 =
      some exObj := by decide

/-- C5 (amended): Put and PutStream upload before touching the metadata
    table; a failed upload returns the error with rows and objects unchanged.
    A successful PutStream produces exactly the streamSuccess state, whose
    row records size_bytes = -1 when the key was fresh, while on a
    pre-existing row the conflict update-set omits size_bytes, so the old
    recorded size survives. -/
theorem c5_put_putstream_contract (attempts : Nat → UploadAttempt)
    (now ttl : Int) (key : Str) (content : Bytes) (digest mediaType : Str)
    (st : StoreState) :
    storagePut false now ttl key content digest mediaType st = (.uploadFailed, st) ∧
    ((∀ n, ¬ attempts n = .ok) →
      storagePutStream attempts now ttl key content digest mediaType st =
        (.uploadFailed, st)) ∧
    ((storagePutStream attempts now ttl key content digest mediaType st).1 = .ok →
      (storagePutStream attempts now ttl key content digest mediaType st).2 =
        streamSuccess now ttl key content digest mediaType st) ∧
    (lookupKey key st.db = none →
      (lookupKey key (streamSuccess now ttl key content digest mediaType st).db).map
          (fun e => e.sizeBytes) = some (-1)) ∧
    (∀ old, lookupKey key st.db = some old →
      (lookupKey key (streamSuccess now ttl key content digest mediaType st).db).map
          (fun e => e.sizeBytes) = some old.sizeBytes) := by
  refine ⟨rfl, ?_, ?_, ?_, ?_⟩
  · intro hfail
    exact putStreamLoop_all_fail attempts now ttl key content digest mediaType st hfail 5 1
  · intro hok
    rcases putStreamLoop_cases attempts now ttl key content digest mediaType st 5 1
      with h | h
    · simp only [storagePutStream, h]
    · simp only [storagePutStream, h] at hok
      exact absurd hok (by decide)
  · intro hnone
    simp only [streamSuccess]
    rw [lookupKey_upsertStream_fresh key
      { key := key, digest := digest, mediaType := mediaType, storedAt := now,
        expiresAt := now + ttl, lastAccess := now, sizeBytes := -1 }
      st.db rfl hnone]
    rfl
  · intro old hold
    simp only [streamSuccess]
    rw [lookupKey_upsertStream_conflict key
      { key := key, digest := digest, mediaType := mediaType, storedAt := now,
        expiresAt := now + ttl, lastAccess := now, sizeBytes := -1 }
      old st.db rfl hold]
    rfl

/-- Witness for c5_put_putstream_contract: a PutStream whose five attempts
    all fail permanently leaves the empty store empty, and a fresh stream
    success records size -1. -/
theorem c5_put_putstream_contract_witness :
    storagePutStream (fun _ => .permanent) 0 1 (str "k") [] (str "d") (str "m")
        { s3 := [], db := [] } = (.uploadFailed, { s3 := [], db := [] }) ∧
    (lookupKey (str "k") (streamSuccess 0 1 (str "k") [] (str "d") (str "m")
        { s3 := [], db := [] }).db).map (fun e => e.sizeBytes) = some (-1) :=
  ⟨(c5_put_putstream_contract (fun _ => .permanent) 0 1 (str "k") [] (str "d")
      (str "m") { s3 := [], db := [] }).2.1 (fun n => by decide),
   (c5_put_putstream_contract (fun _ => .permanent) 0 1 (str "k") [] (str "d")
      (str "m") { s3 := [], db := [] }).2.2.2.1 (by decide)⟩

/-- C5 counterexample: PutStream succeeding over a key whose row already
    records size 100 reports success yet leaves size_bytes = 100, not -1,
    because the stream upsert's update-set omits size_bytes. -/
theorem c5_stream_size_counterexample :
    (storagePutStream (fun _ => .ok) 10 100 (str "k") [7] (str "d") (str "m")
        (exState 1000 100)).1 = .ok ∧
    (lookupKey (str "k")
        ((storagePutStream (fun _ => .ok) 10 100 (str "k") [7] (str "d") (str "m")
          (exState 1000 100)).2).db).map (fun e => e.sizeBytes) = some 100 := by decide



/-- C6 (amended): only a 401 whose WWW-Authenticate header is empty is
    returned to the caller unchanged; any non-empty challenge — Bearer or not
    — triggers exactly one token fetch using the parsed parameters, a failed
    fetch surfaces as an error rather than the original 401, and the cloned
    request is reissued exactly once with its response, a second 401
    included, returned without a further fetch. -/
theorem c6_auth_round (call : AuthCall) (c : ClientState) :
    (∀ r1, call.resp1 = some r1 → ¬ r1.status = 401 →
      (doRequestWithAuth call c).result = .resp r1 ∧
      (doRequestWithAuth call c).tokenFetches = 0) ∧
    (∀ r1, call.resp1 = some r1 → r1.status = 401 → r1.wwwAuth = [] →
      (doRequestWithAuth call c).result = .resp r1 ∧
      (doRequestWithAuth call c).tokenFetches = 0) ∧
    (∀ r1, call.resp1 = some r1 → r1.status = 401 → ¬ r1.wwwAuth = [] →
      (doRequestWithAuth call c).tokenFetches = 1) ∧
    (∀ r1, call.resp1 = some r1 → r1.status = 401 → ¬ r1.wwwAuth = [] →
      call.tokenRes = none → (doRequestWithAuth call c).result = .failed) ∧
    (∀ r1 tok expIn r2, call.resp1 = some r1 → r1.status = 401 →
      ¬ r1.wwwAuth = [] → call.tokenRes = some (tok, expIn) →
      call.resp2 = some r2 →
      (doRequestWithAuth call c).result = .resp r2) := by
  refine ⟨?_, ?_, ?_, ?_, ?_⟩
  · intro r1 h1 h4
    simp [doRequestWithAuth, h1, h4]
  · intro r1 h1 h4 hw
    simp [doRequestWithAuth, h1, h4, hw]
  · intro r1 h1 h4 hw
    cases htr : call.tokenRes with
    | none => simp [doRequestWithAuth, h1, h4, hw, htr]
    | some tr =>
      obtain ⟨tok, expIn⟩ := tr
      cases hr2 : call.resp2 <;> simp [doRequestWithAuth, h1, h4, hw, htr, hr2]
  · intro r1 h1 h4 hw htr
    simp [doRequestWithAuth, h1, h4, hw, htr]
  · intro r1 tok expIn r2 h1 h4 hw htr hr2
    simp [doRequestWithAuth, h1, h4, hw, htr, hr2]

/-- Witness for c6_auth_round: an empty challenge hands the 401 back with no
    fetch, and with a Bearer challenge the reissued request's second 401 is
    returned after exactly one fetch. -/
theorem c6_auth_round_witness :
    (doRequestWithAuth
        { now := 0, resp1 := some { status := 401, wwwAuth := [] },
          tokenRes := none, resp2 := none }
        { token := [], tokenExp := 0 }).result =
      .resp { status := 401, wwwAuth := [] } ∧
    (doRequestWithAuth
        { now := 0,
          resp1 := some { status := 401, wwwAuth := str "Bearer realm=\"r\"" },
          tokenRes := some (str "t", 300),
          resp2 := some { status := 401, wwwAuth := [] } }
        { token := [], tokenExp := 0 }).result =
      .resp { status := 401, wwwAuth := [] } :=
  ⟨((c6_auth_round
      { now := 0, resp1 := some { status := 401, wwwAuth := [] },
        tokenRes := none, resp2 := none }
      { token := [], tokenExp := 0 }).2.1
      { status := 401, wwwAuth := [] } rfl rfl rfl).1,
   (c6_auth_round
      { now := 0,
        resp1 := some { status := 401, wwwAuth := str "Bearer realm=\"r\"" },
        tokenRes := some (str "t", 300),
        resp2 := some { status := 401, wwwAuth := [] } }
      { token := [], tokenExp := 0 }).2.2.2.2
      { status := 401, wwwAuth := str "Bearer realm=\"r\"" } (str "t") 300
      { status := 401, wwwAuth := [] } rfl rfl (by decide) rfl rfl⟩

/-- C6 counterexample: a 401 carrying the non-Bearer challenge
    Basic realm="r" is not returned unchanged — the current client only
    tests for an empty header, so it parses the challenge (finding no realm,
    service or scope), performs a token-endpoint request, and surfaces the
    fetch failure instead of the original 401. -/
theorem c6_basic_challenge_counterexample :
    (doRequestWithAuth
        { now := 0, resp1 := some { status := 401, wwwAuth := str "Basic realm=\"r\"" },
          tokenRes := none, resp2 := none }
        { token := [], tokenExp := 0 }).tokenFetches = 1 ∧
    (doRequestWithAuth
        { now := 0, resp1 := some { status := 401, wwwAuth := str "Basic realm=\"r\"" },
          tokenRes := none, resp2 := none }
        { token := [], tokenExp := 0 }).result = .failed ∧
    (doRequestWithAuth
        { now := 0, resp1 := some { status := 401, wwwAuth := str "Basic realm=\"r\"" },
          tokenRes := none, resp2 := none }
        { token := [], tokenExp := 0 }).tokenRequest = some ([], [], []) := by decide

/-- C7: a stored tag row in the stale-but-valid window revalidated with a 304
    gets expires_at advanced to now + TTL and stored_at to now, while its
    tags bytes, ETag, repository (and every other row) stay untouched, and the
    response is 200 with the stored body under the stored ETag. -/
theorem c7_tag_304_refresh (jsonValid : Str → Bool) (now ttl : Int)
    (fetch : TagsFetch) (db : List TagCache) (image : Str) (e : TagCache)
    (hfind : findTagRow now image db = some e)
    (hstale : ¬ now - e.storedAt < ttl / 2) :
    handleTagsList jsonValid now ttl (.status 304) fetch db image =
      ({ status := 200, etag := e.etag, body := e.tags },
       db.map (fun r =>
         if r.id == e.id then { r with expiresAt := now + ttl, storedAt := now }
         else r)) := by
  simp only [handleTagsList, hfind]
  rw [if_neg hstale]
  simp [validateTagsWithUpstream, refreshTagRow, serveCachedTags]

/-- Witness for c7_tag_304_refresh: the stored row (age 40 of a 60-second
    TTL, so stale-but-valid) is refreshed in place and served unchanged. -/
theorem c7_tag_304_refresh_witness :
    handleTagsList (fun _ => true) 40 60 (.status 304) .fetchErr [exTagRow]
        (str "r") =
      ({ status := 200, etag := exTagRow.etag, body := exTagRow.tags },
       [exTagRow].map (fun r =>
         if r.id == exTagRow.id then
           { r with expiresAt := 40 + 60, storedAt := 40 }
         else r)) :=
  c7_tag_304_refresh (fun _ => true) 40 60 .fetchErr [exTagRow] (str "r")
    exTagRow (by decide) (by decide)

/-- C8 (amended): while every call happens at a time with now + 60 ≤ token
    expiry (the code clears the token only when time.Now().Add(time.Minute)
    is strictly After the expiry), the cached token is non-empty and no
    first answer is a 401, a sequence of authenticated calls performs zero
    token-endpoint requests and leaves the client state unchanged; the
    Authorization header is attached exactly when the token survives the
    strict now + 60 > expiry discard. -/
theorem c8_token_reuse (calls : List AuthCall) (c : ClientState)
    (htok : ¬ c.token = [])
    (hvalid : ∀ call ∈ calls, call.now + 60 ≤ c.tokenExp)
    (hno401 : ∀ call ∈ calls, ∀ r, call.resp1 = some r → ¬ r.status = 401) :
    runAuthCalls calls c = (0, c) ∧
    (∀ call c', c'.tokenExp < call.now + 60 →
      (doRequestWithAuth call c').sentAuth = false) ∧
    (∀ call c', call.now + 60 ≤ c'.tokenExp → ¬ c'.token = [] →
      (doRequestWithAuth call c').sentAuth = true) := by
  refine ⟨?_, ?_, ?_⟩
  · induction calls with
    | nil => rfl
    | cons call rest ih =>
      obtain ⟨hf, hs⟩ := doRequestWithAuth_quiet call c
        (hvalid call (List.mem_cons_self call rest))
        (hno401 call (List.mem_cons_self call rest))
      have hrest := ih (fun x hx => hvalid x (List.mem_cons_of_mem call hx))
        (fun x hx => hno401 x (List.mem_cons_of_mem call hx))
      simp [runAuthCalls, hf, hs, hrest]
  · intro call c' hlt
    rw [doRequestWithAuth_sentAuth]
    have hgt : call.now + 60 > c'.tokenExp := hlt
    simp [hgt]
  · intro call c' hle htok'
    rw [doRequestWithAuth_sentAuth]
    have hngt : ¬ call.now + 60 > c'.tokenExp := by omega
    simp [hngt, htok']

/-- Witness for c8_token_reuse: one authenticated call with a valid cached
    token and a 200 answer makes no token fetch and keeps the state. -/
theorem c8_token_reuse_witness :
    runAuthCalls
        [{ now := 10, resp1 := some { status := 200, wwwAuth := [] },
           tokenRes := none, resp2 := none }]
        { token := str "t", tokenExp := 100 } =
      (0, { token := str "t", tokenExp := 100 }) :=
  (c8_token_reuse
      [{ now := 10, resp1 := some { status := 200, wwwAuth := [] },
         tokenRes := none, resp2 := none }]
      { token := str "t", tokenExp := 100 } (by decide) (by decide)
      (by
        intro call hc r hr
        rcases List.mem_singleton.mp hc with h
        subst h
        injection hr with h2
        subst h2
        decide)).1

/-- C8 counterexample: at the boundary now + 60 = expiry the claim says the
    token is discarded as unusable, but the strict After comparison keeps it:
    the call still attaches the Authorization header, performs no token
    fetch, and the cached token survives. -/
theorem c8_boundary_counterexample :
    (doRequestWithAuth
        { now := 40, resp1 := some { status := 200, wwwAuth := [] },
          tokenRes := none, resp2 := none }
        { token := str "t", tokenExp := 100 }).sentAuth = true ∧
    (doRequestWithAuth
        { now := 40, resp1 := some { status := 200, wwwAuth := [] },
          tokenRes := none, resp2 := none }
        { token := str "t", tokenExp := 100 }).state.token = str "t" ∧
    (doRequestWithAuth
        { now := 40, resp1 := some { status := 200, wwwAuth := [] },
          tokenRes := none, resp2 := none }
        { token := str "t", tokenExp := 100 }).tokenFetches = 0 := by decide



/-- C9: in the manifest miss path, the digest placed both in the
    Docker-Content-Digest response header and on the cached row equals the
    upstream Docker-Content-Digest header when that header is non-empty, and
    otherwise "sha256:" plus the hex SHA-256 of the body. -/
theorem c9_manifest_digest (sha256hex : Bytes → Str) (now ttl : Int)
    (image reference : Str) (upDigest upContentType : Str) (body : Bytes)
    (st : StoreState) :
    (¬ upDigest = [] →
      (manifestMissFetch sha256hex true now ttl image reference 200 upDigest
          upContentType body st).headerDigest = upDigest ∧
      (lookupKey (str "manifests/" ++ image ++ '/' :: reference)
          (manifestMissFetch sha256hex true now ttl image reference 200 upDigest
            upContentType body st).store.db).map (fun e => e.digest) =
        some upDigest) ∧
    (upDigest = [] →
      (manifestMissFetch sha256hex true now ttl image reference 200 upDigest
          upContentType body st).headerDigest = str "sha256:" ++ sha256hex body ∧
      (lookupKey (str "manifests/" ++ image ++ '/' :: reference)
          (manifestMissFetch sha256hex true now ttl image reference 200 upDigest
            upContentType body st).store.db).map (fun e => e.digest) =
        some (str "sha256:" ++ sha256hex body)) := by
  constructor
  · intro h
    constructor
    · simp [manifestMissFetch, h]
    · have hput := lookupKey_upsertPut (str "manifests/" ++ image ++ '/' :: reference)
        { key := str "manifests/" ++ image ++ '/' :: reference, digest := upDigest,
          mediaType := upContentType, storedAt := now, expiresAt := now + ttl,
          lastAccess := now, sizeBytes := (List.length body : Int) } st.db rfl
      simpa [manifestMissFetch, h, storagePut] using hput
  · intro h
    constructor
    · simp [manifestMissFetch, h]
    · have hput := lookupKey_upsertPut (str "manifests/" ++ image ++ '/' :: reference)
        { key := str "manifests/" ++ image ++ '/' :: reference,
          digest := str "sha256:" ++ sha256hex body,
          mediaType := upContentType, storedAt := now, expiresAt := now + ttl,
          lastAccess := now, sizeBytes := (List.length body : Int) } st.db rfl
      simpa [manifestMissFetch, h, storagePut] using hput

/-- Witness for c9_manifest_digest: with a non-empty upstream header the
    header value is cached and echoed; without one the hash of the body is. -/
theorem c9_manifest_digest_witness :
    ((manifestMissFetch (fun _ => str "hh") true 0 10 (str "i") (str "r") 200
        (str "sha256:zz") (str "ct") [1] { s3 := [], db := [] }).headerDigest =
      str "sha256:zz" ∧
     (lookupKey (str "manifests/" ++ str "i" ++ '/' :: str "r")
        (manifestMissFetch (fun _ => str "hh") true 0 10 (str "i") (str "r") 200
          (str "sha256:zz") (str "ct") [1]
          { s3 := [], db := [] }).store.db).map (fun e => e.digest) =
      some (str "sha256:zz")) ∧
    ((manifestMissFetch (fun _ => str "hh") true 0 10 (str "i") (str "r") 200
        [] (str "ct") [1] { s3 := [], db := [] }).headerDigest =
      str "sha256:" ++ str "hh" ∧
     (lookupKey (str "manifests/" ++ str "i" ++ '/' :: str "r")
        (manifestMissFetch (fun _ => str "hh") true 0 10 (str "i") (str "r") 200
          [] (str "ct") [1] { s3 := [], db := [] }).store.db).map
        (fun e => e.digest) =
      some (str "sha256:" ++ str "hh")) :=
  ⟨(c9_manifest_digest (fun _ => str "hh") 0 10 (str "i") (str "r")
      (str "sha256:zz") (str "ct") [1] { s3 := [], db := [] }).1 (by decide),
   (c9_manifest_digest (fun _ => str "hh") 0 10 (str "i") (str "r")
      [] (str "ct") [1] { s3 := [], db := [] }).2 rfl⟩

/-- C10: for every input string the sanitised temp filename contains only
    [A-Za-z0-9_-], has length at most 255, and joining it to the temp
    directory keeps the directory as a prefix (so the HasPrefix rejection
    branch can never fire); for a digest matching ^sha256:[a-f0-9]{64}$ the
    result is "sha256_" followed by the 64 hex characters. -/
theorem c10_sanitize_filename (s d dir : Str) (hd : validDigest d = true) :
    (sanitizeDigest s).all safeChar = true ∧
    (sanitizeDigest s).length ≤ 255 ∧
    goHasPre dir (joinTemp dir (sanitizeDigest s)) = true ∧
    sanitizeDigest d = str "sha256_" ++ d.drop 7 := by
  have hparts : d.length = 71 ∧ goHasPre (str "sha256:") d = true ∧
      (d.drop 7).all hexLower = true := by
    simp only [validDigest, Bool.and_eq_true, beq_iff_eq] at hd
    exact ⟨hd.1.1, hd.1.2, hd.2⟩
  obtain ⟨h71, hpre, hhex⟩ := hparts
  refine ⟨?_, ?_, ?_, ?_⟩
  · simp only [sanitizeDigest]
    split
    · exact all_take _ _ _ (all_map_sanitize s)
    · exact all_map_sanitize s
  · simp only [sanitizeDigest]
    split
    · simp only [List.length_take]
      omega
    · next h => omega
  · simp only [joinTemp]
    split
    · simpa using goHasPre_append dir []
    · exact goHasPre_append dir ('/' :: sanitizeDigest s)
  · have hdec : d = str "sha256:" ++ d.drop 7 := by
      have hx := goHasPre_eq_append (str "sha256:") d hpre
      simpa using hx
    have hmap : d.map (fun c => if safeChar c then c else '_') =
        str "sha256_" ++ d.drop 7 := by
      conv_lhs => rw [hdec]
      rw [List.map_append, map_hex_fixed _ hhex]
      rfl
    have hlen7 : (str "sha256_").length = 7 := by decide
    have hnlt : ¬ (str "sha256_" ++ d.drop 7).length > 255 := by
      simp only [List.length_append, List.length_drop, hlen7, h71]
      omega
    simp only [sanitizeDigest, hmap]
    rw [if_neg hnlt]

/-- Witness for c10_sanitize_filename at an arbitrary unsafe input, a
    well-formed digest and the default temp directory. -/
theorem c10_sanitize_filename_witness :
    (sanitizeDigest (str "x?/y")).all safeChar = true ∧
    (sanitizeDigest (str "x?/y")).length ≤ 255 ∧
    goHasPre (str "/tmp/registry-proxy")
      (joinTemp (str "/tmp/registry-proxy") (sanitizeDigest (str "x?/y"))) = true ∧
    sanitizeDigest
        (str "sha256:aaaaaaaaaaaaaaaaaaaaaaaaaaaaaaaaaaaaaaaaaaaaaaaaaaaaaaaaaaaaaaaa") =
      str "sha256_" ++
        (str "sha256:aaaaaaaaaaaaaaaaaaaaaaaaaaaaaaaaaaaaaaaaaaaaaaaaaaaaaaaaaaaaaaaa").drop 7 :=
  c10_sanitize_filename (str "x?/y")
    (str "sha256:aaaaaaaaaaaaaaaaaaaaaaaaaaaaaaaaaaaaaaaaaaaaaaaaaaaaaaaaaaaaaaaa")
    (str "/tmp/registry-proxy") (by decide)


end RegistryProxy
